import Mathlib

/-!
Verification of the terminal-width-aware rendering engine of
`davelab6/ls-replacement` (`src/main.py`), against its natural-language
specification.

Strings are embedded as `List Char` (Python `str`), column budgets as `Int`
(Python integers may go negative here).  Python `range(n)` with `n < 0` is
empty, which `Int.toNat` models exactly (negative values clamp to `0`).
Python identifiers `prefix` and `postfix` are reserved words in Lean, so the
corresponding parameters are named `pre` and `post`.
-/

namespace LsReplacement

/-- A run of `n` spaces, as printed by a loop over `range(n)` emitting one
space per step; for negative `n` the loop body never runs. -/
def spaces (n : Int) : List Char := List.replicate n.toNat ' '

/-- Shallow embedding of `print_finite` (src/main.py lines 262-298), the fit
renderer.  Each branch returns the concatenation of everything the Python
branch prints.  `var_string[: k]` is `List.take` (in the reachable branch `k`
is positive, so Python's negative-slice semantics never differ). -/
def print_finite (pre post var_string : List Char) (spaceleft : Int) : List Char :=
  let prelen := pre.length
  let postlen := post.length
  let strlen := var_string.length
  if var_string = [] ∧ (prelen + postlen + 1 : Int) ≤ spaceleft then
    -- No var_string
    pre ++ spaces (spaceleft - (prelen + postlen)) ++ post
  else if (prelen + strlen + postlen + 4 : Int) ≤ spaceleft then
    -- Everything goes nicely
    pre ++ [' ', '('] ++ var_string ++ [')', ' ']
      ++ spaces (spaceleft - (prelen + strlen + postlen + 4)) ++ post
  else if (prelen + postlen + 6 : Int) ≥ spaceleft then
    -- No space for var_string segment + pre/post
    if (prelen + postlen + 1 : Int) ≤ spaceleft then
      pre ++ spaces (spaceleft - (prelen + postlen)) ++ post
    else if (prelen : Int) ≤ spaceleft then
      pre
    else if (postlen : Int) ≤ spaceleft then
      -- the loop bound is `spaceleft - prelen` in the source (not `postlen`)
      spaces (spaceleft - prelen) ++ post
    else
      []
  else
    pre ++ [' ', '(']
      ++ var_string.take (spaceleft - (prelen + postlen + 6)).toNat
      ++ ['.', '.', ')', ' '] ++ post

/-- The number of characters of `var_string` included in the output of
`print_finite`, branch for branch: the empty-content and degraded branches print none
of it, the full-fit branch prints all of it, and the truncated branch prints
the clipped slice. -/
def contentChars (pre post var_string : List Char) (spaceleft : Int) : Nat :=
  let prelen := pre.length
  let postlen := post.length
  let strlen := var_string.length
  if var_string = [] ∧ (prelen + postlen + 1 : Int) ≤ spaceleft then
    0
  else if (prelen + strlen + postlen + 4 : Int) ≤ spaceleft then
    strlen
  else if (prelen + postlen + 6 : Int) ≥ spaceleft then
    0
  else
    (var_string.take (spaceleft - (prelen + postlen + 6)).toNat).length

/-- The file-type variants assigned by `File.get_type`
(src/main.py lines 137-171). -/
inductive FileType where
  | directory
  | executable
  | symlink
  | text
  | program
  | makefile
  | dotfile
  | file
deriving DecidableEq, Repr

/-- Python `s[-n:]`: the last `n` characters, or all of `s` when it is
shorter than `n`. -/
def pyTail (n : Nat) (l : List Char) : List Char := l.drop (l.length - n)

/-- The name/extension-based classification of the final `else` of
`File.get_type` (src/main.py lines 160-168).  Note the source compares the
last two characters with `"md"` and the last three with `"txt"`, without a
dot. -/
def nameType (name : List Char) : FileType :=
  if name = "README".data ∨ name = "readme".data ∨ pyTail 2 name = "md".data
      ∨ pyTail 3 name = "txt".data then
    FileType.text
  else if pyTail 2 name = ".c".data ∨ pyTail 3 name = ".py".data then
    FileType.program
  else if name = "Makefile".data ∨ name = "makefile".data then
    FileType.makefile
  else
    FileType.file

/-- The final, unconditional dotfile check of `File.get_type`
(src/main.py lines 170-171): `if self.name[0] == '.' and self.name[1] != '.'`,
run after the type has been assigned and the name possibly suffixed with `/`.
Python raises `IndexError` on `name[0]` for an empty name, and on `name[1]`
for a one-character name `"."` (the `and` short-circuits otherwise); those
raising executions are `none`. -/
def applyDotfile (t : FileType) (name : List Char) : Option (FileType × List Char) :=
  match name with
  | [] => none
  | [c] => if c = '.' then none else some (t, [c])
  | c₁ :: c₂ :: rest =>
      if c₁ = '.' ∧ c₂ ≠ '.' then some (FileType.dotfile, c₁ :: c₂ :: rest)
      else some (t, c₁ :: c₂ :: rest)

/-- Shallow embedding of `File.get_type` (src/main.py lines 137-171).
`modetype` is `oct(st_mode)[2:-3]` as a character list, `ownerExec` is
the owner-execute permission bit, and `realfile_type` is the type of the
`File` built from the resolved symlink target (`none` when that construction
raised and was caught, leaving `self.realfile = None`).  The result is the
assigned type together with the possibly `/`-suffixed name; `none` models the
`IndexError` of the trailing dotfile check. -/
def get_type (name modetype : List Char) (ownerExec : Bool)
    (realfile_type : Option FileType) : Option (FileType × List Char) :=
  if modetype = "040".data ∨ modetype = "40".data then
    applyDotfile FileType.directory (name ++ ['/'])
  else if modetype = "100".data ∧ ownerExec then
    applyDotfile FileType.executable name
  else if modetype = "120".data then
    applyDotfile FileType.symlink
      (if realfile_type = some FileType.directory then name ++ ['/'] else name)
  else
    applyDotfile (nameType name) name

/-- An abstract filesystem for the symlink-resolution recursion of
`File.__init__` / `File.get_type`: `mode` gives `oct(os.lstat(name))[2:-3]`
(`none` when `lstat` raises), `ownerExec` the owner-execute bit, and
`realpath` models `os.path.relpath(os.path.realpath(name))`. -/
structure Fs where
  mode : List Char → Option (List Char)
  ownerExec : List Char → Bool
  realpath : List Char → List Char

/-- A constructed `File`, keeping only the fields the symlink recursion
touches: the (possibly suffixed) name, the assigned type, and — for the
`link` constructor — the nested `File` built from the resolved target
(`leaf` stands for `self.realfile = None` or a type with no nested file). -/
inductive FileRec where
  | leaf (name : List Char) (ftype : FileType) : FileRec
  | link (name : List Char) (ftype : FileType) (realfile : FileRec) : FileRec
deriving DecidableEq, Repr

/-- The `self.type` field of a constructed `File`. -/
def FileRec.ftype : FileRec → FileType
  | FileRec.leaf _ t => t
  | FileRec.link _ t _ => t

/-- How many nested resolved `File`s hang off this one: the length of the
`self.realfile` chain. -/
def chainDepth : FileRec → Nat
  | FileRec.leaf _ _ => 0
  | FileRec.link _ _ r => chainDepth r + 1

/-- Shallow embedding of `File(name)` construction restricted to the fields
of `FileRec` (src/main.py lines 95-171).  The symlink branch recursively
constructs `File(self.realpath)`; the source puts no bound on that recursion,
so the embedding carries explicit `fuel`: `fuel = 0` models the Python
interpreter's recursion limit being hit, whose `RecursionError` the caller's
bare `except:` turns into `self.realfile = None`.  A `none` result means the
construction raised (failed `lstat`, dotfile-check `IndexError`, or exhausted
recursion budget). -/
def buildFile (fs : Fs) : Nat → List Char → Option FileRec
  | 0, _ => none
  | fuel + 1, name =>
    match fs.mode name with
    | none => none
    | some modetype =>
      if modetype = "040".data ∨ modetype = "40".data then
        (applyDotfile FileType.directory (name ++ ['/'])).map
          (fun p => FileRec.leaf p.2 p.1)
      else if modetype = "100".data ∧ fs.ownerExec name then
        (applyDotfile FileType.executable name).map (fun p => FileRec.leaf p.2 p.1)
      else if modetype = "120".data then
        match buildFile fs fuel (fs.realpath name) with
        | none =>
          (applyDotfile FileType.symlink name).map (fun p => FileRec.leaf p.2 p.1)
        | some rf =>
          (applyDotfile FileType.symlink
            (if rf.ftype = FileType.directory then name ++ ['/'] else name)).map
            (fun p => FileRec.link p.2 p.1 rf)
      else
        (applyDotfile (nameType name) name).map (fun p => FileRec.leaf p.2 p.1)

/-- A filesystem with a single entry `a`, a symlink whose resolved path is
`a` itself — `os.path.realpath` on a self-cycle returns the input path. -/
def loopFs : Fs :=
  { mode := fun n => if n = ['a'] then some "120".data else none
  , ownerExec := fun _ => false
  , realpath := fun _ => ['a'] }

/-- The zero-size branch of `File.print_aftertext` (src/main.py lines
257-260 and 345-346): a separating space is printed and one column consumed,
then `print_finite` is called with the literal `(empty)` as the prefix
argument and empty postfix and content arguments. -/
def print_aftertext_zeroSize (spaceleft : Int) : List Char :=
  [' '] ++ print_finite ['(', 'e', 'm', 'p', 't', 'y', ')'] [] [] (spaceleft - 1)

/-! ## Helper lemmas -/

/-- Branch 1 of `print_finite`: empty content with room for prefix, gap and
postfix. -/
lemma print_finite_empty (pre post : List Char) (L : Int)
    (h : (pre.length + post.length + 1 : Int) ≤ L) :
    print_finite pre post [] L
      = pre ++ spaces (L - (pre.length + post.length)) ++ post := by
  simp only [print_finite]
  rw [if_pos ⟨trivial, h⟩]

/-- If the trailing dotfile check of `File.get_type` returns a name whose
first character is `.` and whose second character is not `.`, the type it
returns is `dotfile`, whatever type the earlier branches assigned. -/
lemma applyDotfile_dotname (t₀ t : FileType) (n : List Char) (c : Char)
    (rest : List Char) (hres : applyDotfile t₀ n = some (t, '.' :: c :: rest))
    (hc : c ≠ '.') : t = FileType.dotfile := by
  cases n with
  | nil => simp [applyDotfile] at hres
  | cons a l =>
    cases l with
    | nil =>
      by_cases ha : a = '.'
      · simp [applyDotfile, ha] at hres
      · simp [applyDotfile, ha] at hres
    | cons b m =>
      by_cases hab : a = '.' ∧ b ≠ '.'
      · simp [applyDotfile, hab] at hres
        exact hres.1.symm
      · simp [applyDotfile, hab] at hres
        obtain ⟨-, ha, hb, -⟩ := hres
        exact absurd ⟨ha, fun hb' => hc (hb ▸ hb')⟩ hab

/-! ## Claims -/

/-- C2: for every prefix, postfix, content and every `available ≥ 0`, the
total display width emitted by `print_finite` never exceeds `available` (the
degraded case included: the code never overflows for a non-negative budget,
which is within what the claim allows). -/
theorem C2_width_within_budget (pre post cont : List Char) (L : Int)
    (h : 0 ≤ L) : ((print_finite pre post cont L).length : Int) ≤ L := by
  simp only [print_finite]
  split_ifs with h1 h2 h3 h4 h5 h6
  · obtain ⟨-, h1⟩ := h1
    simp [spaces]
    omega
  · simp [spaces]
    omega
  · simp [spaces]
    omega
  · exact h5
  · simp [spaces]
    omega
  · exact h
  · simp [spaces, List.length_take]
    omega

/-- Witness for C2 at a concrete input. -/
theorem C2_width_within_budget_witness :
    (0 : Int) ≤ 10
    ∧ ((print_finite "[3B]".data "[2 lines]".data "x y".data 10).length : Int) ≤ 10 :=
  ⟨by decide, C2_width_within_budget "[3B]".data "[2 lines]".data "x y".data 10 (by decide)⟩

/-- C3: with empty content and `len(prefix) + len(postfix) + 1 ≤ available`,
the renderer emits the prefix, then spaces filling the gap, then the postfix;
the output length is exactly `available` and the postfix is right-aligned
(the output ends with the postfix). -/
theorem C3_empty_content_layout (pre post : List Char) (L : Int)
    (h : (pre.length + post.length + 1 : Int) ≤ L) :
    print_finite pre post [] L
        = pre ++ spaces (L - (pre.length + post.length)) ++ post
    ∧ ((print_finite pre post [] L).length : Int) = L
    ∧ ∃ a, print_finite pre post [] L = a ++ post := by
  have hout := print_finite_empty pre post L h
  refine ⟨hout, ?_, ⟨pre ++ spaces (L - (pre.length + post.length)), hout⟩⟩
  rw [hout]
  simp [spaces]
  omega

/-- Witness for C3 at a concrete input. -/
theorem C3_empty_content_layout_witness :
    (("[0B]".data.length + "[empty]".data.length + 1 : Int) ≤ 20)
    ∧ (print_finite "[0B]".data "[empty]".data [] 20
        = "[0B]".data ++ spaces (20 - ("[0B]".data.length + "[empty]".data.length))
            ++ "[empty]".data
      ∧ ((print_finite "[0B]".data "[empty]".data [] 20).length : Int) = 20
      ∧ ∃ a, print_finite "[0B]".data "[empty]".data [] 20 = a ++ "[empty]".data) :=
  ⟨by decide, C3_empty_content_layout "[0B]".data "[empty]".data 20 (by decide)⟩

/-- C4: when the full-fit condition
`len(prefix) + len(content) + len(postfix) + 4 ≤ available` holds and the
content is non-empty, the renderer emits
`prefix + " (" + content + ") "`, padding spaces, then the postfix — the
complete content appears verbatim between the parentheses — and the emitted
width is exactly `available`. -/
theorem C4_full_fit_layout (pre post cont : List Char) (L : Int)
    (hne : cont ≠ [])
    (h : (pre.length + cont.length + post.length + 4 : Int) ≤ L) :
    print_finite pre post cont L
        = pre ++ [' ', '('] ++ cont ++ [')', ' ']
            ++ spaces (L - (pre.length + cont.length + post.length + 4)) ++ post
    ∧ ((print_finite pre post cont L).length : Int) = L := by
  have hout : print_finite pre post cont L
      = pre ++ [' ', '('] ++ cont ++ [')', ' ']
          ++ spaces (L - (pre.length + cont.length + post.length + 4)) ++ post := by
    simp only [print_finite]
    rw [if_neg (fun hx => hne hx.1), if_pos h]
  refine ⟨hout, ?_⟩
  rw [hout]
  simp [spaces]
  omega

/-- Witness for C4 at a concrete input. -/
theorem C4_full_fit_layout_witness :
    ("ab".data ≠ []
      ∧ (("[9B]".data.length + "ab".data.length + "[1 line]".data.length + 4 : Int) ≤ 20))
    ∧ (print_finite "[9B]".data "[1 line]".data "ab".data 20
        = "[9B]".data ++ [' ', '('] ++ "ab".data ++ [')', ' ']
            ++ spaces (20 - ("[9B]".data.length + "ab".data.length
                + "[1 line]".data.length + 4)) ++ "[1 line]".data
      ∧ ((print_finite "[9B]".data "[1 line]".data "ab".data 20).length : Int) = 20) :=
  ⟨⟨by decide, by decide⟩,
    C4_full_fit_layout "[9B]".data "[1 line]".data "ab".data 20 (by decide) (by decide)⟩

/-- C1 (counterexample): at `prefix = ""`, `postfix = ""`, `content = "abc"`,
`available = 6`, the claim's guard holds — the full-fit condition
`0 + 3 + 0 + 4 ≤ 6` fails while `0 + 0 + 6 ≤ 6` holds — and the claim
predicts the truncated layout `" (..) "`; the code's degraded branch fires
instead (its guard is `prelen + postlen + 6 >= spaceleft`, not `>`), emitting
six spaces. -/
theorem C1_truncated_boundary_counterexample :
    print_finite [] [] ('a' :: 'b' :: 'c' :: []) 6 = List.replicate 6 ' '
    ∧ print_finite [] [] ('a' :: 'b' :: 'c' :: []) 6
        ≠ [' ', '(', '.', '.', ')', ' '] := by decide

/-- C1 (amended): the truncated layout requires the strict inequality
`len(prefix) + len(postfix) + 6 < available` (at equality the degraded branch
fires).  Under it, together with the failed full-fit condition, the renderer
emits `prefix + " (" + content[:available-(len(prefix)+len(postfix)+6)] +
"..) " + postfix` with no further padding, the truncated content is a strict
prefix of the original content, the two-character ellipsis immediately
follows it, and the emitted width is exactly `available`. -/
theorem C1_truncated_layout (pre post cont : List Char) (L : Int)
    (hfull : ¬ ((pre.length + cont.length + post.length + 4 : Int) ≤ L))
    (htr : (pre.length + post.length + 6 : Int) < L) :
    print_finite pre post cont L
        = pre ++ [' ', '('] ++ cont.take (L - (pre.length + post.length + 6)).toNat
            ++ ['.', '.', ')', ' '] ++ post
    ∧ (∃ rest, rest ≠ [] ∧
        cont = cont.take (L - (pre.length + post.length + 6)).toNat ++ rest)
    ∧ ((print_finite pre post cont L).length : Int) = L := by
  have hs : 2 < cont.length := by omega
  have hne : cont ≠ [] := by
    intro hx
    rw [hx] at hs
    simp at hs
  have hout : print_finite pre post cont L
      = pre ++ [' ', '('] ++ cont.take (L - (pre.length + post.length + 6)).toNat
          ++ ['.', '.', ')', ' '] ++ post := by
    simp only [print_finite]
    rw [if_neg (fun hx => hne hx.1), if_neg hfull, if_neg (by omega)]
  refine ⟨hout, ⟨cont.drop (L - (pre.length + post.length + 6)).toNat, ?_,
      (cont.take_append_drop _).symm⟩, ?_⟩
  · intro hx
    have hd := List.length_drop (L - (pre.length + post.length + 6)).toNat cont
    rw [hx] at hd
    simp at hd
    omega
  · rw [hout]
    simp [spaces, List.length_take]
    omega

/-- Witness for the amended C1 at a concrete input. -/
theorem C1_truncated_layout_witness :
    (¬ (("[9B]".data.length + "abcdef".data.length + "[3 lines]".data.length + 4 : Int) ≤ 22)
      ∧ (("[9B]".data.length + "[3 lines]".data.length + 6 : Int) < 22))
    ∧ (print_finite "[9B]".data "[3 lines]".data "abcdef".data 22
        = "[9B]".data ++ [' ', '(']
            ++ "abcdef".data.take
                ((22 : Int) - ("[9B]".data.length + "[3 lines]".data.length + 6)).toNat
            ++ ['.', '.', ')', ' '] ++ "[3 lines]".data
      ∧ (∃ rest, rest ≠ [] ∧
          "abcdef".data
            = "abcdef".data.take
                ((22 : Int) - ("[9B]".data.length + "[3 lines]".data.length + 6)).toNat
                ++ rest)
      ∧ ((print_finite "[9B]".data "[3 lines]".data "abcdef".data 22).length : Int) = 22) :=
  ⟨⟨by decide, by decide⟩,
    C1_truncated_layout "[9B]".data "[3 lines]".data "abcdef".data 22 (by decide) (by decide)⟩

/-- C5 (code bug): at `prefix = "abcdef"`, `postfix = "xy"`, `content = "c"`,
`available = 4`, the postfix-only degraded branch fires (`postlen = 2 ≤ 4 <
6 = prelen`), but its padding loop runs `range(spaceleft - prelen)` — the
source uses `prelen` where the right-alignment described by the spec needs
`postlen` — so the padding count is negative, no padding is printed, and the
postfix comes out flush-left at width 2 instead of right-aligned at width 4
after `available - len(postfix) = 2` columns of padding. -/
theorem C5_postfix_padding_bug :
    print_finite "abcdef".data "xy".data ['c'] 4 = "xy".data
    ∧ print_finite "abcdef".data "xy".data ['c'] 4
        ≠ List.replicate 2 ' ' ++ "xy".data := by decide

/-- C6 (counterexample): at `prefix = "abcdef"`, `postfix = "xy"`,
`content = "c"`, `available = 3 < 6 = len(prefix)`, the renderer emits the
postfix `"xy"` — which is neither a (possibly clipped) prefix of the prefix
string nor nothing, contradicting the claim that only the prefix or nothing
can be emitted. -/
theorem C6_narrow_counterexample :
    print_finite "abcdef".data "xy".data ['c'] 3 = "xy".data
    ∧ ("xy".data ∉ (List.range 7).map (fun k => "abcdef".data.take k))
    ∧ "xy".data ≠ [] := by decide

/-- C6 (amended): for `available < len(prefix)` (including negative values)
the renderer terminates without error and never emits negative-length padding
(`range` of a negative count is empty), but what it can emit is the postfix,
not the prefix: the output is exactly the postfix (flush-left, unpadded) when
`len(postfix) ≤ available`, and nothing otherwise. -/
theorem C6_narrow_budget (pre post cont : List Char) (L : Int)
    (h : L < (pre.length : Int)) :
    print_finite pre post cont L
      = if (post.length : Int) ≤ L then post else [] := by
  have hb1 : ¬(cont = [] ∧ (pre.length + post.length + 1 : Int) ≤ L) :=
    fun hx => absurd hx.2 (by omega)
  simp only [print_finite]
  rw [if_neg hb1,
    if_neg (by omega : ¬((pre.length + cont.length + post.length + 4 : Int) ≤ L)),
    if_pos (by omega : ((pre.length + post.length + 6 : Int) ≥ L)),
    if_neg (by omega : ¬((pre.length + post.length + 1 : Int) ≤ L)),
    if_neg (by omega : ¬((pre.length : Int) ≤ L))]
  by_cases hq : ((post.length : Int) ≤ L)
  · rw [if_pos hq, if_pos hq]
    have hz : (L - (pre.length : Int)).toNat = 0 := by omega
    simp [spaces, hz]
  · rw [if_neg hq, if_neg hq]

/-- Witness for the amended C6 at a concrete input. -/
theorem C6_narrow_budget_witness :
    ((2 : Int) < ("abcdef".data.length : Int))
    ∧ print_finite "abcdef".data "xy".data ['c'] 2
        = if (("xy".data.length : Int) ≤ 2) then "xy".data else [] :=
  ⟨by decide, C6_narrow_budget "abcdef".data "xy".data ['c'] 2 (by decide)⟩

/-- C7: for fixed prefix, postfix and content, the number of content
characters included in the output is monotone in the budget: one fewer column
never shows more content characters, across all strategy boundaries (full
fit, truncated, degraded, empty). -/
theorem C7_content_monotone (pre post cont : List Char) (L : Int) :
    contentChars pre post cont L ≤ contentChars pre post cont (L + 1) := by
  by_cases hc : cont = []
  · subst hc
    simp only [contentChars]
    split_ifs <;> simp [List.length_take]
  · simp only [contentChars, hc, false_and, if_false]
    split_ifs <;> simp [List.length_take] <;> omega

/-- C8 (counterexample): a directory named `.git` — the claim says the
directory classification takes precedence over the dotfile rule, but the
source runs the dotfile check last and unconditionally, so the assigned
variant is `dotfile`, not `directory`. -/
theorem C8_precedence_counterexample :
    get_type ".git".data "040".data false none
        = some (FileType.dotfile, ".git/".data)
    ∧ FileType.dotfile ≠ FileType.directory := by decide

/-- C8 (amended): the dotfile rule has the HIGHEST precedence, not the
second-lowest: the check runs after every other branch, on the possibly
`/`-suffixed name, and overrides the assigned variant whenever that name
starts with `.` and its second character is not `.` — directories, symlinks
and owner-executable files included. -/
theorem C8_dotfile_overrides (name modetype : List Char) (ownerExec : Bool)
    (realfile_type : Option FileType) (t : FileType) (c : Char) (rest : List Char)
    (hres : get_type name modetype ownerExec realfile_type
        = some (t, '.' :: c :: rest))
    (hc : c ≠ '.') : t = FileType.dotfile := by
  simp only [get_type] at hres
  split_ifs at hres <;> exact applyDotfile_dotname _ _ _ _ _ hres hc

/-- Witness for the amended C8: a hidden owner-executable regular file. -/
theorem C8_dotfile_overrides_witness :
    (get_type ".abc".data "100".data true none
        = some (FileType.dotfile, '.' :: 'a' :: "bc".data)
      ∧ 'a' ≠ '.')
    ∧ FileType.dotfile = FileType.dotfile :=
  ⟨⟨by decide, by decide⟩,
    C8_dotfile_overrides ".abc".data "100".data true none FileType.dotfile 'a'
      "bc".data (by decide) (by decide)⟩

/-- C9 (code bug): on a filesystem whose sole entry `a` is a symlink that
resolves to itself, the source's `File(self.realpath)` recursion has no
depth-1 cap: with recursion budget 2 the resolved chain already has depth 1,
and with budget 6 it has depth 5 — one nested resolution per available stack
frame, until the interpreter's recursion limit is hit and swallowed by the
bare `except:`.  The claim's depth-1 cap does not exist in the code. -/
theorem C9_no_depth_cap :
    (buildFile loopFs 2 ['a']).map chainDepth = some 1
    ∧ (buildFile loopFs 6 ['a']).map chainDepth = some 5 := by decide

/-- C10 (counterexample): at `available = 20`, the zero-size branch renders
`" (empty)"` followed by twelve spaces: the `(empty)` literal is passed as
the PREFIX argument of `print_finite` (the postfix argument is the empty
string), so it is emitted left-aligned, not right-aligned in the postfix
position as the claim states. -/
theorem C10_empty_literal_counterexample :
    print_aftertext_zeroSize 20 = [' '] ++ "(empty)".data ++ List.replicate 12 ' '
    ∧ print_aftertext_zeroSize 20 ≠ [' '] ++ List.replicate 12 ' ' ++ "(empty)".data := by
  decide

/-- C10 (amended): for a zero-size regular entry, the content candidate and
the postfix are both empty and the literal `(empty)` is the PREFIX argument;
when `spaceleft ≥ 9` (one column goes to the separating space, eight to the
literal plus the minimum gap) the empty-content case fires and the segment is
the space, the literal, and `spaceleft - 8` padding spaces — no ` (…) `
content wrapper — with total width exactly `spaceleft`. -/
theorem C10_zero_size_layout (L : Int) (h : 9 ≤ L) :
    print_aftertext_zeroSize L
        = [' '] ++ (['(', 'e', 'm', 'p', 't', 'y', ')'] ++ spaces (L - 8))
    ∧ ((print_aftertext_zeroSize L).length : Int) = L := by
  have h8 : ((['(', 'e', 'm', 'p', 't', 'y', ')'] : List Char).length
      + ([] : List Char).length + 1 : Int) ≤ L - 1 := by
    simp
    omega
  have hout := print_finite_empty ['(', 'e', 'm', 'p', 't', 'y', ')'] [] (L - 1) h8
  have harg : (L - 1
      - ((['(', 'e', 'm', 'p', 't', 'y', ')'] : List Char).length
          + (([] : List Char).length) : Int)) = L - 8 := by
    simp
    omega
  rw [harg] at hout
  constructor
  · simp only [print_aftertext_zeroSize, hout]
    simp
  · simp only [print_aftertext_zeroSize, hout]
    simp [spaces]
    omega

/-- Witness for the amended C10 at a concrete budget. -/
theorem C10_zero_size_layout_witness :
    ((9 : Int) ≤ 20)
    ∧ (print_aftertext_zeroSize 20
        = [' '] ++ (['(', 'e', 'm', 'p', 't', 'y', ')'] ++ spaces ((20 : Int) - 8))
      ∧ ((print_aftertext_zeroSize 20).length : Int) = 20) :=
  ⟨by decide, C10_zero_size_layout 20 (by decide)⟩

end LsReplacement
